import Mathlib

/-!
Shallow embedding of the constrained-solve and objective-composition core of
the polyfem repository (src/polyfem/solver/ALSolver.cpp and
src/polyfem/solver/Objective.cpp), together with theorems settling the
frozen claims about it.

Numeric values (`double` in the source) are modelled as exact rationals;
the external collaborators consumed by the core (the nonlinear minimizer,
the penalty/Lagrangian forms' error metric, the mesh/quadrature assembly)
are abstract function fields of the embedding structures, as the spec
treats them as external interfaces.
-/

namespace Polyfem

/-- Embedding of the collaborators consumed by `ALSolver` (ALSolver.cpp):
the `NLProblem` predicates and DOF transforms, the penalty form's
`compute_error`, the Lagrangian form's multiplier state (abstract type `Λ`)
and `update_lagrangian`, and the nonlinear minimizer.  `minimize` receives
the outer-iteration index (standing for any external state, e.g. the
barrier stiffness mutated once per outer iteration by
`update_barrier_stiffness`), the current AL weight and multiplier state,
and the start vector, and returns the iterate the minimizer leaves in
`tmp_sol` — whether it returned normally or threw the recoverable
`std::runtime_error` that `solve_al` swallows.  `valueIsFinite x` models
`std::isfinite(nl_problem.value(x))`; `sqrtQ` is an abstract square root
used only inside the `eta` computation. -/
structure ALProblem (V Λ : Type) where
  full_to_reduced : V → V
  reduced_to_full : V → V
  valueIsFinite : V → Bool
  is_step_valid : V → V → Bool
  is_step_collision_free : V → V → Bool
  compute_error : V → ℚ
  minimize : ℕ → ℚ → Λ → V → V
  update_lagrangian : V → ℚ → Λ → Λ
  sqrtQ : ℚ → ℚ

/-- The loop guard of `ALSolver::solve_al` / precondition of
`ALSolver::solve_reduced` (ALSolver.cpp lines 43-45 and 100-102), with
`tmp_sol = nl_problem.full_to_reduced(sol)` as at both call sites: the
reduced objective value is finite, the step is valid, and the step is
collision free. -/
def feasible {V Λ : Type} (P : ALProblem V Λ) (sol : V) : Bool :=
  P.valueIsFinite (P.full_to_reduced sol) &&
  P.is_step_valid sol (P.full_to_reduced sol) &&
  P.is_step_collision_free sol (P.full_to_reduced sol)

/-- Mutable state of the `solve_al` outer loop: the full-space solution,
the AL weight, and the Lagrangian multiplier state. -/
structure ALState (V Λ : Type) where
  sol : V
  al_weight : ℚ
  lagr : Λ

/-- One body of the `solve_al` while-loop (ALSolver.cpp lines 46-88):
minimize from the current solution with the current weight, recompute the
penalty error, form `eta = 1 - sqrt(current_error / initial_error)`,
revert to the pre-loop initial solution when `eta < 0`, then either scale
the weight by `scaling` (when `eta < eta_tol` and the weight is below
`max_al_weight`) or perform the dual-ascent `update_lagrangian` with the
current weight.  `k` is the outer-iteration counter `al_steps`. -/
def alStep {V Λ : Type} (P : ALProblem V Λ)
    (scaling max_al_weight eta_tol : ℚ) (initial_sol : V) (initial_error : ℚ)
    (k : ℕ) (st : ALState V Λ) : ALState V Λ :=
  let sol := P.minimize k st.al_weight st.lagr st.sol
  let current_error := P.compute_error sol
  let eta := 1 - P.sqrtQ (current_error / initial_error)
  let sol := if eta < 0 then initial_sol else sol
  if eta < eta_tol ∧ st.al_weight < max_al_weight then
    { sol := sol, al_weight := st.al_weight * scaling, lagr := st.lagr }
  else
    { sol := sol, al_weight := st.al_weight, lagr := P.update_lagrangian sol st.al_weight st.lagr }

/-- The state of the `solve_al` loop after `k` evaluations of the loop
guard: once the guard is satisfied the loop has exited and the state is
frozen, otherwise one more `alStep` runs.  The weight trace of a run of
`ALSolver::solve_al` is the `al_weight` component of this sequence. -/
def alRun {V Λ : Type} (P : ALProblem V Λ)
    (initial_al_weight scaling max_al_weight eta_tol : ℚ)
    (sol0 : V) (lagr0 : Λ) : ℕ → ALState V Λ
  | 0 => { sol := sol0, al_weight := initial_al_weight, lagr := lagr0 }
  | k + 1 =>
    let st := alRun P initial_al_weight scaling max_al_weight eta_tol sol0 lagr0 k
    if feasible P st.sol then st
    else alStep P scaling max_al_weight eta_tol sol0 (P.compute_error sol0) k st

/-- The AL weight during outer iteration `k` of `ALSolver::solve_al`
(`al_weight` in ALSolver.cpp; starts at `initial_al_weight`, line 35). -/
def alWeight {V Λ : Type} (P : ALProblem V Λ)
    (initial_al_weight scaling max_al_weight eta_tol : ℚ)
    (sol0 : V) (lagr0 : Λ) (k : ℕ) : ℚ :=
  (alRun P initial_al_weight scaling max_al_weight eta_tol sol0 lagr0 k).al_weight

/-- The `solve_al` while-loop with explicit fuel: at each guard
evaluation, exit with the current solution when the guard is satisfied,
otherwise run one more `alStep`.  `none` means the run is still looping
after `fuel` iterations. -/
def solveAlAux {V Λ : Type} (P : ALProblem V Λ)
    (scaling max_al_weight eta_tol : ℚ) (initial_sol : V) (initial_error : ℚ) :
    ℕ → ℕ → ALState V Λ → Option V
  | 0, _, st => if feasible P st.sol then some st.sol else none
  | fuel + 1, k, st =>
    if feasible P st.sol then some st.sol
    else
      solveAlAux P scaling max_al_weight eta_tol initial_sol initial_error
        fuel (k + 1) (alStep P scaling max_al_weight eta_tol initial_sol initial_error k st)

/-- `ALSolver::solve_al` (ALSolver.cpp lines 25-91) with explicit fuel for
the a-priori unbounded while-loop: returns `some sol` when the loop guard
is satisfied within `fuel` iterations (the function returns normally with
that solution), `none` when the run is still looping.  The external
`line_search_begin/end` bracketing and the restoration of the solver's
iteration budget (line 90) have no observable effect on the modelled
state. -/
def solve_al {V Λ : Type} (P : ALProblem V Λ)
    (initial_al_weight scaling max_al_weight eta_tol : ℚ)
    (sol0 : V) (lagr0 : Λ) (fuel : ℕ) : Option V :=
  solveAlAux P scaling max_al_weight eta_tol sol0 (P.compute_error sol0) fuel 0
    { sol := sol0, al_weight := initial_al_weight, lagr := lagr0 }

/-- Result of `ALSolver::solve_reduced` (ALSolver.cpp lines 93-124):
the final full-space solution, the fatal error message if one was raised
(`log_and_throw_error` on the precondition, or a re-raised minimizer
exception), and whether `nl_solver->minimize` was invoked. -/
structure ReducedResult (V : Type) where
  sol : V
  error : Option String
  minimizer_called : Bool

/-- `ALSolver::solve_reduced` (ALSolver.cpp lines 93-124).  `mz` models
the reduced-space `nl_solver->minimize` call: it returns the final
`tmp_sol` together with `some message` when it threw.  When the
feasibility precondition fails the function raises
`log_and_throw_error` before ever invoking the minimizer; otherwise it
minimizes and maps the result back to full space (also on a minimizer
exception, which is then re-raised). -/
def solve_reduced {V Λ : Type} (P : ALProblem V Λ)
    (mz : V → V × Option String) (sol : V) : ReducedResult V :=
  if feasible P sol then
    let r := mz (P.full_to_reduced sol)
    { sol := P.reduced_to_full r.1, error := r.2, minimizer_called := true }
  else
    { sol := sol,
      error := some "Failed to apply boundary conditions; solve with augmented lagrangian first!",
      minimizer_called := false }

/-- A concrete `ALProblem` instance whose guard never becomes feasible and
whose penalty error is constantly `1`, used to evaluate the AL weight
trace on explicit parameter values. -/
def stallProblem : ALProblem Unit Unit where
  full_to_reduced := id
  reduced_to_full := id
  valueIsFinite := fun _ => false
  is_step_valid := fun _ _ => true
  is_step_collision_free := fun _ _ => true
  compute_error := fun _ => 1
  minimize := fun _ _ _ s => s
  update_lagrangian := fun _ _ l => l
  sqrtQ := id

/-- A concrete `ALProblem` instance whose guard is satisfied immediately. -/
def okProblem : ALProblem Unit Unit where
  full_to_reduced := id
  reduced_to_full := id
  valueIsFinite := fun _ => true
  is_step_valid := fun _ _ => true
  is_step_collision_free := fun _ _ => true
  compute_error := fun _ => 1
  minimize := fun _ _ _ s => s
  update_lagrangian := fun _ _ l => l
  sqrtQ := id

/-- Whether the character list begins with the pattern (first argument). -/
def listStartsWith : List Char → List Char → Bool
  | [], _ => true
  | _ :: _, [] => false
  | p :: ps, c :: cs => p == c && listStartsWith ps cs

/-- Whether the pattern occurs as a contiguous run of the character list:
`std::string::find(pat) != npos`. -/
def hasSub (pat : List Char) : List Char → Bool
  | [] => listStartsWith pat []
  | c :: cs => listStartsWith pat (c :: cs) || hasSub pat cs

/-- `std::stoi` on a string whose leading run of characters is made of
digits: the value of that digit run. -/
def digitsToNat (cs : List Char) : ℕ :=
  (cs.takeWhile Char.isDigit).foldl (fun n c => 10 * n + (c.toNat - 48)) 0

/-- `TransientObjective::get_transient_quadrature_weights` (Objective.cpp
lines 579-620).  `weights.assign(n, v)` is `List.replicate n v`;
`transient_integral_type_.find("step_") != npos` is substring containment;
`std::stoi` applied to the text after the first five characters parses its
leading digit run.  The `simpson` branch sets both end weights to `dt/3`
and its interior loop writes every index `0 < i < n-1` to `4dt/3` when `i`
is odd and `2dt/4` when `i` is even, expressed here as a map over the
index range.  The trailing `assert(false)` branch for an unknown rule
name is a no-op in release builds and leaves the initial all-`dt`
vector. -/
def get_transient_quadrature_weights (time_steps : ℕ) (dt : ℚ)
    (transient_integral_type : String) : List ℚ :=
  let weights := List.replicate (time_steps + 1) dt
  if transient_integral_type = "uniform" then
    weights.set 0 0
  else if transient_integral_type = "trapezoidal" then
    (weights.set 0 (dt / 2)).set (weights.length - 1) (dt / 2)
  else if transient_integral_type = "simpson" then
    (List.range weights.length).map (fun i =>
      if i = 0 ∨ i = weights.length - 1 then dt / 3
      else if i % 2 = 1 then dt * 4 / 3
      else dt * 2 / 4)
  else if transient_integral_type = "final" then
    (List.replicate (time_steps + 1) (0 : ℚ)).set time_steps 1
  else if hasSub "step_".toList transient_integral_type.toList then
    let step := digitsToNat (transient_integral_type.toList.drop 5)
    (List.replicate (time_steps + 1) (0 : ℚ)).set step 1
  else
    weights

/-- Identity and dimension of a design `Parameter`: `id` models the
object's address (the source dispatches on pointer identity, e.g.
`&param == shape_param_.get()`), `full_dim` the size of its parameter
vector. -/
structure ParamE where
  id : ℕ
  full_dim : ℕ

/-- The slice of the cached simulation `State` that the objective methods
modelled here read: its number of degrees of freedom. -/
structure StateE where
  ndof : ℕ

/-- Eigen `VectorXd` addition `a += b`: defined only when the sizes
match — a size mismatch trips Eigen's runtime assertion. -/
def vecAdd : List ℚ → List ℚ → Option (List ℚ)
  | [], [] => some []
  | x :: xs, y :: ys => (vecAdd xs ys).map (fun v => (x + y) :: v)
  | _, _ => none

/-- Eigen `MatrixXd` addition `a += b` on matrices stored as lists of
columns: defined only when the shapes match. -/
def matAdd : List (List ℚ) → List (List ℚ) → Option (List (List ℚ))
  | [], [] => some []
  | c :: cs, d :: ds =>
    match vecAdd c d, matAdd cs ds with
    | some v, some m => some (v :: m)
    | _, _ => none
  | _, _ => none

/-- Abstract sub-objective interface (the `Objective` base class) as read
by `SumObjective`: a `value`, a partial gradient per parameter, and an
adjoint right-hand side per state, the latter a matrix stored as its list
of columns (the common contract gives it one column per time step). -/
structure ObjectiveE where
  value : ℚ
  compute_partial_gradient : ParamE → List ℚ
  compute_adjoint_rhs : StateE → List (List ℚ)

/-- `SumObjective` (Objective.cpp lines 188-230): its list of
sub-objectives. -/
structure SumObjective where
  objs : List ObjectiveE

/-- `SumObjective::value` (Objective.cpp lines 222-230). -/
def SumObjective.value (o : SumObjective) : ℚ :=
  o.objs.foldl (fun val obj => val + obj.value) 0

/-- `SumObjective::compute_partial_gradient` (Objective.cpp lines
211-220): a zero vector of size `param.full_dim` accumulated with `+=`
over the sub-objectives' gradients. -/
def SumObjective.compute_partial_gradient (o : SumObjective) (param : ParamE) :
    Option (List ℚ) :=
  o.objs.foldlM (fun grad obj => vecAdd grad (obj.compute_partial_gradient param))
    (List.replicate param.full_dim 0)

/-- `SumObjective::compute_adjoint_rhs` (Objective.cpp lines 200-209):
the accumulator is `Eigen::VectorXd rhs; rhs.setZero(state.ndof())` — a
single column of `ndof` zeros — accumulated with `+=` over the
sub-objectives' adjoint right-hand-side matrices. -/
def SumObjective.compute_adjoint_rhs (o : SumObjective) (state : StateE) :
    Option (List (List ℚ)) :=
  o.objs.foldlM (fun rhs obj => matAdd rhs (obj.compute_adjoint_rhs state))
    [List.replicate state.ndof 0]

/-- Modelled from the spec: the elementwise sum of the sub-objectives'
adjoint right-hand sides, started from `cols` columns of `ndof` zeros —
one column per time step, as the common contract in the spec words it.
To be compared with the source's `SumObjective.compute_adjoint_rhs`. -/
def adjointRhsSumSpec (o : SumObjective) (state : StateE) (cols : ℕ) :
    Option (List (List ℚ)) :=
  o.objs.foldlM (fun rhs obj => matAdd rhs (obj.compute_adjoint_rhs state))
    (List.replicate cols (List.replicate state.ndof 0))

/-- A sub-objective whose simulation caches two time steps: its adjoint
right-hand side has two columns (`ndof = 1`). -/
def twoStepObjective : ObjectiveE where
  value := 0
  compute_partial_gradient := fun _ => []
  compute_adjoint_rhs := fun _ => [[5], [7]]

/-- A `SumObjective` over the single two-time-step sub-objective. -/
def sumOfTwoStep : SumObjective := ⟨[twoStepObjective]⟩

/-- A state with one degree of freedom. -/
def oneDofState : StateE := ⟨1⟩

/-- `VolumePaneltyObjective` (Objective.cpp lines 415-451; the source's
spelling is preserved): the `soft_bound` pair and the wrapped
`VolumeObjective`, whose `value` and `compute_partial_gradient` delegate
to the external quadrature assembly and are abstract fields here. -/
structure VolumePaneltyObjective where
  bound : ℚ × ℚ
  obj_value : ℚ
  obj_gradient : ParamE → List ℚ

/-- `VolumePaneltyObjective::value` (Objective.cpp lines 425-435). -/
def VolumePaneltyObjective.value (o : VolumePaneltyObjective) : ℚ :=
  let vol := o.obj_value
  if vol < o.bound.1 then (vol - o.bound.1) ^ 2
  else if vol > o.bound.2 then (vol - o.bound.2) ^ 2
  else 0

/-- `VolumePaneltyObjective::compute_partial_gradient` (Objective.cpp
lines 440-451). -/
def VolumePaneltyObjective.compute_partial_gradient (o : VolumePaneltyObjective)
    (param : ParamE) : List ℚ :=
  let vol := o.obj_value
  let grad := o.obj_gradient param
  if vol < o.bound.1 then grad.map (fun g => 2 * (vol - o.bound.1) * g)
  else if vol > o.bound.2 then grad.map (fun g => 2 * (vol - o.bound.2) * g)
  else List.replicate grad.length 0

/-- Eigen `squaredNorm` of a vector. -/
def squaredNorm (v : List ℚ) : ℚ := (v.map (fun x => x ^ 2)).sum

/-- Eigen componentwise difference `a - b` of equally sized vectors. -/
def vecSub (a b : List ℚ) : List ℚ := a.zipWith (· - ·) b

/-- `BarycenterTargetObjective` (Objective.cpp lines 486-569): the
spatial dimension, the current time step, the target matrix stored as its
list of rows, the wrapped `VolumeObjective` value and the per-axis
`PositionObjective` values (their spatial integrals are assembled by the
external integration utility). -/
structure BarycenterTargetObjective where
  dim_ : ℕ
  time_step_ : ℕ
  target_ : List (List ℚ)
  objv_value : ℚ
  objp_value : ℕ → ℚ

/-- `BarycenterTargetObjective::get_target` (Objective.cpp lines
500-507): the time-step-indexed row when more than one target row is
stored, the single row otherwise. -/
def BarycenterTargetObjective.get_target (o : BarycenterTargetObjective) : List ℚ :=
  if o.target_.length > 1 then o.target_.getD o.time_step_ [] else o.target_.getD 0 []

/-- `BarycenterTargetObjective::get_barycenter` (Objective.cpp lines
561-569): `center(d) = objp[d]->value() / objv->value()`. -/
def BarycenterTargetObjective.get_barycenter (o : BarycenterTargetObjective) : List ℚ :=
  (List.range o.dim_).map (fun d => o.objp_value d / o.objv_value)

/-- `BarycenterTargetObjective::value` (Objective.cpp lines 516-519). -/
def BarycenterTargetObjective.value (o : BarycenterTargetObjective) : ℚ :=
  squaredNorm (vecSub o.get_barycenter o.get_target)

/-- `ComplianceObjective` (Objective.cpp lines 664-767): the identities
(addresses) of the elastic, shape and topology parameters it may be asked
to differentiate against (`none` models a null shared pointer), and the
per-element SIMP topology gradient assembled from the cached state by the
external quadrature machinery (lines 723-763), abstracted as a field. -/
structure ComplianceObjective where
  elastic_param : Option ℕ
  shape_param : Option ℕ
  topo_param : Option ℕ
  topo_gradient : ParamE → List ℚ

/-- `ComplianceObjective::compute_partial_gradient` (Objective.cpp lines
712-767), with explicit call-depth fuel: the shape-parameter branch (line
722) is `term = compute_partial_gradient(param);` — a call to the very
member function being defined, with the same arguments.  `none` models a
call that has not returned within `fuel` nested calls; the elastic branch
raises `log_and_throw_error("Not implemented!")`; parameters matching
none of the three stored identities return the zero vector the accumulator
was initialized to. -/
def ComplianceObjective.compute_partial_gradient (o : ComplianceObjective) :
    ℕ → ParamE → Option (Except String (List ℚ))
  | 0, _ => none
  | fuel + 1, param =>
    if o.elastic_param = some param.id then some (Except.error "Not implemented!")
    else if o.shape_param = some param.id then
      o.compute_partial_gradient fuel param
    else if o.topo_param = some param.id then some (Except.ok (o.topo_gradient param))
    else some (Except.ok (List.replicate param.full_dim 0))

/-- `TargetObjective`'s integrand data (Objective.cpp lines 769-828): the
element correspondence map `e_to_ref_e_` (a `std::map<int, int>`,
modelled as an association list with distinct keys) and the reference
simulation's evaluations consumed by the integrand — `ref_pts e q` is the
geometric mapping of reference element `e` at quadrature point `q`
(`gbase_ref.eval_geom_mapping`), `ref_u e q` the reference displacement
interpolated there (`io::Evaluator::interpolate_at_local_vals`). -/
structure TargetObjective where
  e_to_ref_e : List (ℕ × ℕ)
  ref_u : ℕ → ℕ → List ℚ
  ref_pts : ℕ → ℕ → List ℚ

/-- The reference element used by the integrand (Objective.cpp lines
779-783 and 802-806): the map entry when one exists, otherwise `e`
itself. -/
def TargetObjective.ref_elem (o : TargetObjective) (e : ℕ) : ℕ :=
  match o.e_to_ref_e.lookup e with
  | some e_ref => e_ref
  | none => e

/-- The `j_func` integrand of `TargetObjective::get_integral_functional`
(Objective.cpp lines 776-797) at one quadrature point `q` of element `e`:
the squared mismatch between the reference (displacement + position) and
this simulation's. -/
def TargetObjective.j_at (o : TargetObjective) (u pts : ℕ → List ℚ) (e q : ℕ) : ℚ :=
  let e_ref := o.ref_elem e
  squaredNorm (vecSub
    (List.zipWith (· + ·) (o.ref_u e_ref q) (o.ref_pts e_ref q))
    (List.zipWith (· + ·) (u q) (pts q)))

/-- The `djdu_func` derivative integrand (Objective.cpp lines 799-821)
at one quadrature point `q` of element `e`. -/
def TargetObjective.djdu_at (o : TargetObjective) (u pts : ℕ → List ℚ) (e q : ℕ) :
    List ℚ :=
  let e_ref := o.ref_elem e
  (vecSub (List.zipWith (· + ·) (u q) (pts q))
    (List.zipWith (· + ·) (o.ref_u e_ref q) (o.ref_pts e_ref q))).map (fun x => 2 * x)

/-- The body-id filter of `TargetObjective::set_reference` (Objective.cpp
lines 839 and 853): an element is kept when `reference_cached_body_ids`
is empty or contains its body id. -/
def keepBody (sel : List ℤ) (b : ℤ) : Bool := sel.isEmpty || sel.contains b

/-- The element indices a simulation selects, in element order; a
simulation's mesh is represented by the list of its elements' body ids.
The length of this list is the `count` / `ref_count` of
`set_reference`. -/
def selectedElems (body_ids sel : List ℤ) : List ℕ :=
  (List.range body_ids.length).filter (fun e => keepBody sel (body_ids.getD e 0))

/-- The selected element indices of one body id, in element order — one
`std::vector` value of `interested_body_id_to_e`. -/
def elemsOfBody (body_ids sel : List ℤ) (b : ℤ) : List ℕ :=
  (List.range body_ids.length).filter
    (fun e => keepBody sel (body_ids.getD e 0) && body_ids.getD e 0 == b)

/-- Insert an integer into a sorted list, keeping it sorted. -/
def insortZ (b : ℤ) : List ℤ → List ℤ
  | [] => [b]
  | x :: xs => if b ≤ x then b :: x :: xs else x :: insortZ b xs

/-- Sort a list of integers (insertion sort). -/
def sortZ (l : List ℤ) : List ℤ := l.foldr insortZ []

/-- The distinct selected body ids in increasing order: the key sequence
of the `std::map<int, std::vector<int>>` groupings iterated by
`set_reference`. -/
def selectedBodyKeys (body_ids sel : List ℤ) : List ℤ :=
  sortZ ((body_ids.filter (fun b => keepBody sel b)).dedup)

/-- Pair the i-th selected element with the i-th reference element of the
same body, `i` ranging over this simulation's list (Objective.cpp lines
867-873); the `std::vector` access `ref_interested_body_id_to_e[kv.first][i]`
past the end of the reference list is undefined behaviour, modelled as
`none`. -/
def pairLists : List ℕ → List ℕ → Option (List (ℕ × ℕ))
  | [], _ => some []
  | e :: es, r :: rs => (pairLists es rs).map (fun l => (e, r) :: l)
  | _ :: _, [] => none

/-- The correspondence map `e_to_ref_e_` built by `set_reference`:
per-body pairing of this simulation's selected elements with the
reference's, concatenated over the body ids in map order. -/
def buildCorrespondence (body_ids ref_body_ids sel : List ℤ) :
    Option (List (ℕ × ℕ)) :=
  (selectedBodyKeys body_ids sel).foldlM
    (fun acc b =>
      (pairLists (elemsOfBody body_ids sel b) (elemsOfBody ref_body_ids sel b)).map
        (fun l => acc ++ l))
    []

/-- `TargetObjective::set_reference` (Objective.cpp lines 830-874):
groups both simulations' selected elements by body id, compares the two
selected-element counts — a mismatch is reported with `logger().error`
(line 863), a diagnostic only — and then unconditionally proceeds to
build `e_to_ref_e_`.  Returns the built map together with whether the
mismatch error was logged. -/
def set_reference (body_ids ref_body_ids sel : List ℤ) :
    Option (List (ℕ × ℕ)) × Bool :=
  let ref_count := (selectedElems ref_body_ids sel).length
  let count := (selectedElems body_ids sel).length
  (buildCorrespondence body_ids ref_body_ids sel, count != ref_count)

/-- The weight is scaled only when it is currently below `max_al_weight`;
otherwise it is unchanged. -/
theorem alStep_al_weight_cases {V Λ : Type} (P : ALProblem V Λ)
    (scaling max_al_weight eta_tol : ℚ) (initial_sol : V) (initial_error : ℚ)
    (k : ℕ) (st : ALState V Λ) :
    ((alStep P scaling max_al_weight eta_tol initial_sol initial_error k st).al_weight =
        st.al_weight * scaling ∧ st.al_weight < max_al_weight) ∨
    (alStep P scaling max_al_weight eta_tol initial_sol initial_error k st).al_weight =
        st.al_weight := by
  unfold alStep
  by_cases h : (1 - P.sqrtQ (P.compute_error (P.minimize k st.al_weight st.lagr st.sol) / initial_error) < eta_tol ∧ st.al_weight < max_al_weight)
  · exact Or.inl (by simp [h, h.2])
  · exact Or.inr (by simp [h])

/-- Successive weights of a run, unfolded once. -/
theorem alWeight_succ {V Λ : Type} (P : ALProblem V Λ)
    (initial_al_weight scaling max_al_weight eta_tol : ℚ)
    (sol0 : V) (lagr0 : Λ) (k : ℕ) :
    alWeight P initial_al_weight scaling max_al_weight eta_tol sol0 lagr0 (k + 1) =
      (let st := alRun P initial_al_weight scaling max_al_weight eta_tol sol0 lagr0 k
       if feasible P st.sol then st.al_weight
       else (alStep P scaling max_al_weight eta_tol sol0 (P.compute_error sol0) k st).al_weight) := by
  by_cases hf : feasible P (alRun P initial_al_weight scaling max_al_weight eta_tol sol0 lagr0 k).sol
  · simp [alWeight, alRun, hf]
  · simp [alWeight, alRun, hf]

/-- C1 (counterexample): in the run of `solve_al` on `stallProblem` with
`initial_al_weight = 1`, `scaling = 2`, `max_al_weight = 3/2`,
`eta_tol = 1/2`, the AL weight starts at `1 < 3/2` but after the first
outer iteration equals `2 > max_al_weight`: line 81 of ALSolver.cpp scales
the weight whenever it is merely below `max_al_weight`, so one scaling can
overshoot the cap. -/
theorem al_weight_exceeds_max_counterexample :
    alWeight stallProblem 1 2 (3 / 2) (1 / 2) () () 0 = 1 ∧
    alWeight stallProblem 1 2 (3 / 2) (1 / 2) () () 1 = 2 ∧
    ¬ alWeight stallProblem 1 2 (3 / 2) (1 / 2) () () 1 ≤ 3 / 2 := by
  refine ⟨rfl, ?_, ?_⟩ <;> norm_num [alWeight, alRun, alStep, feasible, stallProblem]

/-- C1 (amended): for every run of `ALSolver::solve_al` with
`initial_al_weight > 0` and `scaling ≥ 1`, the AL weight starts at
`initial_al_weight`, is non-decreasing from one outer iteration to the
next, and — since it is scaled only while strictly below `max_al_weight`
— never exceeds `max initial_al_weight (scaling * max_al_weight)`.  (It
can exceed `max_al_weight` itself, by up to a factor of `scaling`.) -/
theorem al_weight_monotone_and_bounded {V Λ : Type} (P : ALProblem V Λ)
    (initial_al_weight scaling max_al_weight eta_tol : ℚ)
    (sol0 : V) (lagr0 : Λ)
    (hW : 0 < initial_al_weight) (hs : 1 ≤ scaling) :
    alWeight P initial_al_weight scaling max_al_weight eta_tol sol0 lagr0 0 = initial_al_weight ∧
    (∀ k, alWeight P initial_al_weight scaling max_al_weight eta_tol sol0 lagr0 k ≤
      alWeight P initial_al_weight scaling max_al_weight eta_tol sol0 lagr0 (k + 1)) ∧
    (∀ k, alWeight P initial_al_weight scaling max_al_weight eta_tol sol0 lagr0 k ≤
      max initial_al_weight (scaling * max_al_weight)) := by
  have hs0 : (0 : ℚ) < scaling := lt_of_lt_of_le one_pos hs
  have key : ∀ k,
      0 < alWeight P initial_al_weight scaling max_al_weight eta_tol sol0 lagr0 k ∧
      alWeight P initial_al_weight scaling max_al_weight eta_tol sol0 lagr0 k ≤
        max initial_al_weight (scaling * max_al_weight) := by
    intro k
    induction k with
    | zero => exact ⟨hW, le_max_left _ _⟩
    | succ n ih =>
      rw [alWeight_succ]
      by_cases hf : feasible P (alRun P initial_al_weight scaling max_al_weight eta_tol sol0 lagr0 n).sol
      · simpa [hf] using ih
      · simp only [hf, if_false]
        rcases alStep_al_weight_cases P scaling max_al_weight eta_tol sol0
            (P.compute_error sol0) n
            (alRun P initial_al_weight scaling max_al_weight eta_tol sol0 lagr0 n) with h | h
        · rw [h.1]
          refine ⟨mul_pos ih.1 hs0, ?_⟩
          calc (alRun P initial_al_weight scaling max_al_weight eta_tol sol0 lagr0 n).al_weight * scaling
              ≤ max_al_weight * scaling :=
                mul_le_mul_of_nonneg_right h.2.le hs0.le
            _ = scaling * max_al_weight := mul_comm _ _
            _ ≤ max initial_al_weight (scaling * max_al_weight) := le_max_right _ _
        · rw [h]; exact ih
  refine ⟨rfl, ?_, fun k => (key k).2⟩
  intro k
  rw [alWeight_succ]
  by_cases hf : feasible P (alRun P initial_al_weight scaling max_al_weight eta_tol sol0 lagr0 k).sol
  · simp [hf, alWeight]
  · simp only [hf, if_false]
    rcases alStep_al_weight_cases P scaling max_al_weight eta_tol sol0
        (P.compute_error sol0) k
        (alRun P initial_al_weight scaling max_al_weight eta_tol sol0 lagr0 k) with h | h
    · rw [h.1]
      exact le_mul_of_one_le_right (key k).1.le hs
    · rw [h]; simp [alWeight]

/-- Witness for `al_weight_monotone_and_bounded` at a concrete run. -/
theorem al_weight_monotone_and_bounded_witness :
    alWeight stallProblem 1 2 (3 / 2) (1 / 2) () () 0 = 1 ∧
    (∀ k, alWeight stallProblem 1 2 (3 / 2) (1 / 2) () () k ≤
      alWeight stallProblem 1 2 (3 / 2) (1 / 2) () () (k + 1)) ∧
    (∀ k, alWeight stallProblem 1 2 (3 / 2) (1 / 2) () () k ≤
      max 1 (2 * (3 / 2))) :=
  al_weight_monotone_and_bounded stallProblem 1 2 (3 / 2) (1 / 2) () ()
    (by norm_num) (by norm_num)

/-- If the fuelled loop returns a solution, that solution satisfies the
loop guard. -/
theorem solveAlAux_feasible {V Λ : Type} (P : ALProblem V Λ)
    (scaling max_al_weight eta_tol : ℚ) (initial_sol : V) (initial_error : ℚ) :
    ∀ (fuel k : ℕ) (st : ALState V Λ) (sol : V),
      solveAlAux P scaling max_al_weight eta_tol initial_sol initial_error fuel k st =
        some sol →
      feasible P sol = true := by
  intro fuel
  induction fuel with
  | zero =>
    intro k st sol h
    by_cases hf : feasible P st.sol
    · simp only [solveAlAux, hf, if_true, Option.some.injEq] at h
      rw [← h]; exact hf
    · simp [solveAlAux, hf] at h
  | succ n ih =>
    intro k st sol h
    by_cases hf : feasible P st.sol
    · simp only [solveAlAux, hf, if_true, Option.some.injEq] at h
      rw [← h]; exact hf
    · simp only [solveAlAux, hf, if_false] at h
      exact ih (k + 1) _ sol h

/-- C2: whenever `ALSolver::solve_al` returns normally, the returned
solution satisfies all three loop guards (ALSolver.cpp lines 43-45): the
reduced-space objective value is finite, `is_step_valid` holds, and
`is_step_collision_free` holds. -/
theorem solve_al_returns_feasible {V Λ : Type} (P : ALProblem V Λ)
    (initial_al_weight scaling max_al_weight eta_tol : ℚ)
    (sol0 : V) (lagr0 : Λ) (fuel : ℕ) (sol : V)
    (h : solve_al P initial_al_weight scaling max_al_weight eta_tol sol0 lagr0 fuel =
      some sol) :
    P.valueIsFinite (P.full_to_reduced sol) = true ∧
    P.is_step_valid sol (P.full_to_reduced sol) = true ∧
    P.is_step_collision_free sol (P.full_to_reduced sol) = true := by
  have hf : feasible P sol = true :=
    solveAlAux_feasible P scaling max_al_weight eta_tol sol0 (P.compute_error sol0)
      fuel 0 _ sol h
  simpa [feasible, Bool.and_eq_true, and_assoc] using hf

/-- Witness for `solve_al_returns_feasible` on a run that exits at once. -/
theorem solve_al_returns_feasible_witness :
    okProblem.valueIsFinite (okProblem.full_to_reduced ()) = true ∧
    okProblem.is_step_valid () (okProblem.full_to_reduced ()) = true ∧
    okProblem.is_step_collision_free () (okProblem.full_to_reduced ()) = true :=
  solve_al_returns_feasible okProblem 1 2 10 (1 / 2) () () 0 () (by decide)

/-- C3: `ALSolver::solve_reduced` called with a solution whose
reduced-space objective value is non-finite, or for which `is_step_valid`
or `is_step_collision_free` is false, raises the fatal
`log_and_throw_error` (ALSolver.cpp line 103) immediately: it never
silently returns, and the minimizer is never invoked. -/
theorem solve_reduced_infeasible_fatal {V Λ : Type} (P : ALProblem V Λ)
    (mz : V → V × Option String) (sol : V)
    (h : P.valueIsFinite (P.full_to_reduced sol) = false ∨
      P.is_step_valid sol (P.full_to_reduced sol) = false ∨
      P.is_step_collision_free sol (P.full_to_reduced sol) = false) :
    (solve_reduced P mz sol).error =
      some "Failed to apply boundary conditions; solve with augmented lagrangian first!" ∧
    (solve_reduced P mz sol).minimizer_called = false := by
  have hf : feasible P sol = false := by
    rcases h with h | h | h <;> simp [feasible, h]
  simp [solve_reduced, hf]

/-- Witness for `solve_reduced_infeasible_fatal` at a concrete infeasible
input. -/
theorem solve_reduced_infeasible_fatal_witness :
    (solve_reduced stallProblem (fun v => (v, none)) ()).error =
      some "Failed to apply boundary conditions; solve with augmented lagrangian first!" ∧
    (solve_reduced stallProblem (fun v => (v, none)) ()).minimizer_called = false :=
  solve_reduced_infeasible_fatal stallProblem (fun v => (v, none)) ()
    (Or.inl rfl)

/-- C4: `TransientObjective::get_transient_quadrature_weights` for
`time_steps = 4`, `dt = 1` returns exactly the spec's five vectors, and
for every rule name and every `time_steps`/`dt` the returned vector has
length `time_steps + 1`. -/
theorem transient_quadrature_weights_spec :
    get_transient_quadrature_weights 4 1 "uniform" = [0, 1, 1, 1, 1] ∧
    get_transient_quadrature_weights 4 1 "trapezoidal" = [1 / 2, 1, 1, 1, 1 / 2] ∧
    get_transient_quadrature_weights 4 1 "final" = [0, 0, 0, 0, 1] ∧
    get_transient_quadrature_weights 4 1 "step_2" = [0, 0, 1, 0, 0] ∧
    get_transient_quadrature_weights 4 1 "simpson" = [1 / 3, 4 / 3, 2 / 4, 4 / 3, 1 / 3] ∧
    ∀ (time_steps : ℕ) (dt : ℚ) (rule : String),
      (get_transient_quadrature_weights time_steps dt rule).length = time_steps + 1 := by
  refine ⟨by decide, ?_, by decide, by decide, ?_, ?_⟩
  · norm_num [get_transient_quadrature_weights, List.replicate, List.set]
    decide
  · norm_num [get_transient_quadrature_weights, List.replicate, List.set,
      List.range_succ, hasSub, listStartsWith]
    rw [if_neg (by decide), if_neg (by decide)]
  · intro time_steps dt rule
    unfold get_transient_quadrature_weights
    split_ifs <;> simp

/-- `vecAdd` on equally sized vectors is the componentwise sum. -/
theorem vecAdd_eq_zipWith :
    ∀ xs ys : List ℚ, xs.length = ys.length →
      vecAdd xs ys = some (xs.zipWith (· + ·) ys) := by
  intro xs
  induction xs with
  | nil => intro ys h; cases ys with
    | nil => rfl
    | cons y ys => simp at h
  | cons x xs ih =>
    intro ys h
    cases ys with
    | nil => simp at h
    | cons y ys =>
      simp only [List.length_cons, Nat.add_right_cancel_iff] at h
      simp [vecAdd, ih ys h, List.zipWith_cons_cons]

/-- Accumulating `vecAdd` over sub-objective gradients of the right size
produces the componentwise sum. -/
theorem foldlM_vecAdd_grad (param : ParamE) :
    ∀ (objs : List ObjectiveE) (acc : List ℚ),
      (∀ obj ∈ objs, (obj.compute_partial_gradient param).length = acc.length) →
      List.foldlM (fun grad obj => vecAdd grad (obj.compute_partial_gradient param)) acc objs =
        some (objs.foldl
          (fun grad obj => grad.zipWith (· + ·) (obj.compute_partial_gradient param)) acc) := by
  intro objs
  induction objs with
  | nil => intro acc _; rfl
  | cons o os ih =>
    intro acc h
    have hlen : acc.length = (o.compute_partial_gradient param).length :=
      (h o (List.mem_cons_self o os)).symm
    have hstep := vecAdd_eq_zipWith acc (o.compute_partial_gradient param) hlen
    have hlen2 : (acc.zipWith (· + ·) (o.compute_partial_gradient param)).length = acc.length := by
      simp [List.length_zipWith, hlen]
    simp only [List.foldlM_cons, hstep, Option.bind_eq_bind, Option.some_bind, List.foldl_cons]
    exact ih _ (fun obj hm => by rw [hlen2]; exact h obj (List.mem_cons_of_mem o hm))

/-- Folding scalar addition of sub-objective values from `a` gives `a`
plus their sum. -/
theorem foldl_add_value :
    ∀ (objs : List ObjectiveE) (a : ℚ),
      objs.foldl (fun val obj => val + obj.value) a = a + (objs.map ObjectiveE.value).sum := by
  intro objs
  induction objs with
  | nil => intro a; simp
  | cons o os ih => intro a; simp [ih, add_assoc]

/-- Accumulating `matAdd` over single-column adjoint right-hand sides of
height matching the accumulator produces the single summed column. -/
theorem foldlM_matAdd_single (state : StateE) :
    ∀ (objs : List ObjectiveE) (c : List ℚ),
      (∀ obj ∈ objs, ∃ col : List ℚ,
        obj.compute_adjoint_rhs state = [col] ∧ col.length = c.length) →
      List.foldlM (fun rhs obj => matAdd rhs (obj.compute_adjoint_rhs state)) [c] objs =
        some [objs.foldl
          (fun col obj => col.zipWith (· + ·) ((obj.compute_adjoint_rhs state).headD [])) c] := by
  intro objs
  induction objs with
  | nil => intro c _; rfl
  | cons o os ih =>
    intro c h
    obtain ⟨col, hcol, hclen⟩ := h o (List.mem_cons_self o os)
    have hstep : matAdd [c] [col] = some [c.zipWith (· + ·) col] := by
      simp [matAdd, vecAdd_eq_zipWith c col hclen.symm]
    have hlen2 : (c.zipWith (· + ·) col).length = c.length := by
      simp [List.length_zipWith, hclen]
    simp only [List.foldlM_cons, hcol, hstep, Option.bind_eq_bind, Option.some_bind,
      List.foldl_cons, List.headD_cons]
    exact ih _ (fun obj hm => by
      obtain ⟨col2, hc2, hl2⟩ := h obj (List.mem_cons_of_mem o hm)
      exact ⟨col2, hc2, by rw [hl2, hlen2]⟩)

/-- C6 (counterexample): for the `SumObjective` over one sub-objective
whose simulation caches two time steps (adjoint rhs `[[5], [7]]`, two
columns, `ndof = 1`), `SumObjective::compute_adjoint_rhs` adds that
matrix into an `ndof`-sized `VectorXd` — a dimension mismatch (`none`) —
while the spec's elementwise columnwise sum is the matrix itself. -/
theorem sum_adjoint_rhs_counterexample :
    SumObjective.compute_adjoint_rhs sumOfTwoStep oneDofState = none ∧
    adjointRhsSumSpec sumOfTwoStep oneDofState 2 = some [[5], [7]] := by
  constructor
  · rfl
  · simp [adjointRhsSumSpec, sumOfTwoStep, twoStepObjective, oneDofState, matAdd, vecAdd]

/-- C6 (amended): `SumObjective::value` is the exact sum of its
sub-objectives' values, and `compute_partial_gradient` the componentwise
sum of their gradients (sized `param.full_dim` per the common contract);
`compute_adjoint_rhs` accumulates into a single `ndof`-sized column, so
it equals the elementwise sum of the sub-objectives' adjoint right-hand
sides exactly when each of those consists of one `ndof`-sized column —
with more than one time-step column the accumulation is a dimension
mismatch, not the columnwise sum. -/
theorem sum_objective_additivity (o : SumObjective) (param : ParamE) (state : StateE)
    (hg : ∀ obj ∈ o.objs, (obj.compute_partial_gradient param).length = param.full_dim)
    (ha : ∀ obj ∈ o.objs, ∃ col : List ℚ,
      obj.compute_adjoint_rhs state = [col] ∧ col.length = state.ndof) :
    SumObjective.value o = (o.objs.map ObjectiveE.value).sum ∧
    SumObjective.compute_partial_gradient o param =
      some (o.objs.foldl
        (fun grad obj => grad.zipWith (· + ·) (obj.compute_partial_gradient param))
        (List.replicate param.full_dim 0)) ∧
    SumObjective.compute_adjoint_rhs o state =
      some [o.objs.foldl
        (fun col obj => col.zipWith (· + ·) ((obj.compute_adjoint_rhs state).headD []))
        (List.replicate state.ndof 0)] := by
  refine ⟨?_, ?_, ?_⟩
  · unfold SumObjective.value
    rw [foldl_add_value, zero_add]
  · unfold SumObjective.compute_partial_gradient
    exact foldlM_vecAdd_grad param o.objs _
      (fun obj hm => by rw [hg obj hm, List.length_replicate])
  · unfold SumObjective.compute_adjoint_rhs
    exact foldlM_matAdd_single state o.objs _
      (fun obj hm => by
        obtain ⟨col, hc, hl⟩ := ha obj hm
        exact ⟨col, hc, by rw [hl, List.length_replicate]⟩)

/-- A sub-objective with a single-column adjoint right-hand side. -/
def singleColObjective : ObjectiveE where
  value := 2
  compute_partial_gradient := fun _ => [1, 2]
  compute_adjoint_rhs := fun _ => [[3]]

/-- A `SumObjective` over two copies of the single-column
sub-objective. -/
def sumPair : SumObjective := ⟨[singleColObjective, singleColObjective]⟩

/-- Witness for `sum_objective_additivity` at a concrete sum of two
sub-objectives. -/
theorem sum_objective_additivity_witness :
    SumObjective.value sumPair = (sumPair.objs.map ObjectiveE.value).sum ∧
    SumObjective.compute_partial_gradient sumPair ⟨0, 2⟩ =
      some (sumPair.objs.foldl
        (fun grad obj => grad.zipWith (· + ·) (obj.compute_partial_gradient ⟨0, 2⟩))
        (List.replicate 2 0)) ∧
    SumObjective.compute_adjoint_rhs sumPair ⟨1⟩ =
      some [sumPair.objs.foldl
        (fun col obj => col.zipWith (· + ·) ((obj.compute_adjoint_rhs ⟨1⟩).headD []))
        (List.replicate 1 0)] :=
  sum_objective_additivity sumPair ⟨0, 2⟩ ⟨1⟩
    (by
      intro obj hm
      have h : obj = singleColObjective := by
        simp only [sumPair, List.mem_cons, List.mem_singleton, List.not_mem_nil, or_false] at hm
        rcases hm with h | h <;> exact h
      rw [h]; rfl)
    (by
      intro obj hm
      have h : obj = singleColObjective := by
        simp only [sumPair, List.mem_cons, List.mem_singleton, List.not_mem_nil, or_false] at hm
        rcases hm with h | h <;> exact h
      rw [h]; exact ⟨[3], rfl, rfl⟩)

/-- C7: for `lo ≤ hi`, `VolumePaneltyObjective::value` is `(vol - lo)²`
below the band, `(vol - hi)²` above it, and `0` inside, with
`compute_partial_gradient` equal to `2 (vol - lo) · dvol`,
`2 (vol - hi) · dvol`, and the zero vector respectively; at `vol = lo`
and `vol = hi` both the value and the gradient vanish, so the one-sided
quadratic formulas agree with the interior at the seams (continuity). -/
theorem volume_penalty_piecewise (o : VolumePaneltyObjective) (param : ParamE)
    (h : o.bound.1 ≤ o.bound.2) :
    (o.obj_value < o.bound.1 →
      o.value = (o.obj_value - o.bound.1) ^ 2 ∧
      o.compute_partial_gradient param =
        (o.obj_gradient param).map (fun g => 2 * (o.obj_value - o.bound.1) * g)) ∧
    (o.bound.1 ≤ o.obj_value → o.obj_value ≤ o.bound.2 →
      o.value = 0 ∧
      o.compute_partial_gradient param = List.replicate (o.obj_gradient param).length 0) ∧
    (o.bound.2 < o.obj_value →
      o.value = (o.obj_value - o.bound.2) ^ 2 ∧
      o.compute_partial_gradient param =
        (o.obj_gradient param).map (fun g => 2 * (o.obj_value - o.bound.2) * g)) ∧
    (o.obj_value = o.bound.1 ∨ o.obj_value = o.bound.2 →
      o.value = 0 ∧
      o.compute_partial_gradient param = List.replicate (o.obj_gradient param).length 0) := by
  unfold VolumePaneltyObjective.value VolumePaneltyObjective.compute_partial_gradient
  refine ⟨?_, ?_, ?_, ?_⟩
  · intro hlt
    rw [if_pos hlt, if_pos hlt]
    exact ⟨rfl, rfl⟩
  · intro h1 h2
    rw [if_neg (not_lt.mpr h1), if_neg (not_lt.mpr h2), if_neg (not_lt.mpr h1),
      if_neg (not_lt.mpr h2)]
    exact ⟨rfl, rfl⟩
  · intro hgt
    have h1 : ¬ o.obj_value < o.bound.1 := not_lt.mpr (le_trans h hgt.le)
    rw [if_neg h1, if_pos hgt, if_neg h1, if_pos hgt]
    exact ⟨rfl, rfl⟩
  · rintro (he | he)
    · have h1 : ¬ o.obj_value < o.bound.1 := by rw [he]; exact lt_irrefl _
      have h2 : ¬ o.bound.2 < o.obj_value := not_lt.mpr (he ▸ h)
      rw [if_neg h1, if_neg h2, if_neg h1, if_neg h2]
      exact ⟨rfl, rfl⟩
    · have h1 : ¬ o.obj_value < o.bound.1 := not_lt.mpr (he ▸ h)
      have h2 : ¬ o.bound.2 < o.obj_value := by rw [he]; exact lt_irrefl _
      rw [if_neg h1, if_neg h2, if_neg h1, if_neg h2]
      exact ⟨rfl, rfl⟩

/-- A volume penalty with band `[0, 1]` and current volume `1/2`. -/
def midVolumePenalty : VolumePaneltyObjective := ⟨(0, 1), 1 / 2, fun _ => [1]⟩

/-- Witness for `volume_penalty_piecewise` at the concrete band `[0, 1]`
and volume `1/2`. -/
theorem volume_penalty_piecewise_witness :
    (midVolumePenalty.obj_value < midVolumePenalty.bound.1 →
      midVolumePenalty.value = (midVolumePenalty.obj_value - midVolumePenalty.bound.1) ^ 2 ∧
      midVolumePenalty.compute_partial_gradient ⟨0, 1⟩ =
        (midVolumePenalty.obj_gradient ⟨0, 1⟩).map
          (fun g => 2 * (midVolumePenalty.obj_value - midVolumePenalty.bound.1) * g)) ∧
    (midVolumePenalty.bound.1 ≤ midVolumePenalty.obj_value →
      midVolumePenalty.obj_value ≤ midVolumePenalty.bound.2 →
      midVolumePenalty.value = 0 ∧
      midVolumePenalty.compute_partial_gradient ⟨0, 1⟩ =
        List.replicate (midVolumePenalty.obj_gradient ⟨0, 1⟩).length 0) ∧
    (midVolumePenalty.bound.2 < midVolumePenalty.obj_value →
      midVolumePenalty.value = (midVolumePenalty.obj_value - midVolumePenalty.bound.2) ^ 2 ∧
      midVolumePenalty.compute_partial_gradient ⟨0, 1⟩ =
        (midVolumePenalty.obj_gradient ⟨0, 1⟩).map
          (fun g => 2 * (midVolumePenalty.obj_value - midVolumePenalty.bound.2) * g)) ∧
    (midVolumePenalty.obj_value = midVolumePenalty.bound.1 ∨
      midVolumePenalty.obj_value = midVolumePenalty.bound.2 →
      midVolumePenalty.value = 0 ∧
      midVolumePenalty.compute_partial_gradient ⟨0, 1⟩ =
        List.replicate (midVolumePenalty.obj_gradient ⟨0, 1⟩).length 0) :=
  volume_penalty_piecewise midVolumePenalty ⟨0, 1⟩ (by norm_num [midVolumePenalty])

/-- Componentwise difference of an indexed family against a vector,
written out index by index. -/
theorem zipWith_sub_range_map (t : List ℚ) (f : ℕ → ℚ) :
    List.zipWith (· - ·) ((List.range t.length).map f) t =
      (List.range t.length).map fun d => f d - t.getD d 0 := by
  apply List.ext_getElem
  · simp
  · intro i h1 h2
    simp only [List.length_zipWith, List.length_map, List.length_range, min_self] at h1
    simp [List.getElem_zipWith, List.getElem_map, List.getElem_range,
      List.getD_eq_getElem?_getD, List.getElem?_eq_getElem h1]

/-- C8: for a `BarycenterTargetObjective` with nonzero volume,
`value()` is the squared Euclidean norm of `centroid - target`, where
`centroid_d = PositionObjective_d.value() / VolumeObjective.value()` and
`target` is the stored target row (the time-step-indexed one when one
target per step is given, via `get_target`). -/
theorem barycenter_target_value (o : BarycenterTargetObjective)
    (_hvol : o.objv_value ≠ 0) (hlen : o.get_target.length = o.dim_) :
    o.value = ((List.range o.dim_).map
      (fun d => (o.objp_value d / o.objv_value - o.get_target.getD d 0) ^ 2)).sum := by
  unfold BarycenterTargetObjective.value BarycenterTargetObjective.get_barycenter
    vecSub squaredNorm
  rw [← hlen, zipWith_sub_range_map o.get_target (fun d => o.objp_value d / o.objv_value),
    List.map_map]
  rfl

/-- A two-dimensional barycenter objective: unit-square-like data with
volume `2`, per-axis position integrals `1` (centroid `(1/2, 1/2)`), and
target `(1, 1)`. -/
def unitSquareBarycenter : BarycenterTargetObjective :=
  ⟨2, 0, [[1, 1]], 2, fun _ => 1⟩

/-- Witness for `barycenter_target_value` at the concrete
two-dimensional objective. -/
theorem barycenter_target_value_witness :
    BarycenterTargetObjective.value unitSquareBarycenter =
      ((List.range unitSquareBarycenter.dim_).map
        (fun d => (unitSquareBarycenter.objp_value d / unitSquareBarycenter.objv_value -
          (BarycenterTargetObjective.get_target unitSquareBarycenter).getD d 0) ^ 2)).sum :=
  barycenter_target_value unitSquareBarycenter (by norm_num [unitSquareBarycenter]) (by rfl)

/-- C9: `ComplianceObjective::compute_partial_gradient` asked for the
shape parameter (line 722 of Objective.cpp) calls itself with unchanged
arguments, so the call never returns, for any call-depth fuel — the
claimed termination with the shape derivative fails. -/
theorem compliance_shape_gradient_diverges (o : ComplianceObjective) (param : ParamE)
    (he : o.elastic_param ≠ some param.id) (hs : o.shape_param = some param.id) :
    ∀ fuel, o.compute_partial_gradient fuel param = none := by
  intro fuel
  induction fuel with
  | zero => rfl
  | succ n ih => simp [ComplianceObjective.compute_partial_gradient, he, hs, ih]

/-- A compliance objective holding only a shape parameter of identity 1. -/
def complianceWithShape : ComplianceObjective := ⟨none, some 1, none, fun _ => []⟩

/-- The shape parameter itself, passed back to the objective. -/
def shapeParamOne : ParamE := ⟨1, 3⟩

/-- Witness for `compliance_shape_gradient_diverges` at call depth 5. -/
theorem compliance_shape_gradient_diverges_witness :
    ComplianceObjective.compute_partial_gradient complianceWithShape 5 shapeParamOne = none :=
  compliance_shape_gradient_diverges complianceWithShape shapeParamOne
    (by decide) (by decide) 5

/-- C10: when element `e` has no entry in the correspondence map
`e_to_ref_e_`, the `TargetObjective` integrand and its derivative
silently fall back to `e_ref = e`: the reference simulation is evaluated
at the same element index — not a failure and not a zero
contribution. -/
theorem target_integrand_fallback (o : TargetObjective) (u pts : ℕ → List ℚ) (e q : ℕ)
    (h : o.e_to_ref_e.lookup e = none) :
    o.ref_elem e = e ∧
    o.j_at u pts e q = squaredNorm (vecSub
      (List.zipWith (· + ·) (o.ref_u e q) (o.ref_pts e q))
      (List.zipWith (· + ·) (u q) (pts q))) ∧
    o.djdu_at u pts e q = (vecSub (List.zipWith (· + ·) (u q) (pts q))
      (List.zipWith (· + ·) (o.ref_u e q) (o.ref_pts e q))).map (fun x => 2 * x) := by
  have he : o.ref_elem e = e := by
    unfold TargetObjective.ref_elem
    rw [h]
  refine ⟨he, ?_, ?_⟩
  · unfold TargetObjective.j_at
    rw [he]
  · unfold TargetObjective.djdu_at
    rw [he]

/-- A target objective whose map only covers element 0. -/
def targetNoEntry : TargetObjective := ⟨[(0, 3)], fun _ _ => [1], fun _ _ => [2]⟩

/-- Witness for `target_integrand_fallback` at unmapped element 1. -/
theorem target_integrand_fallback_witness :
    targetNoEntry.ref_elem 1 = 1 ∧
    targetNoEntry.j_at (fun _ => [0]) (fun _ => [0]) 1 0 = squaredNorm (vecSub
      (List.zipWith (· + ·) (targetNoEntry.ref_u 1 0) (targetNoEntry.ref_pts 1 0))
      (List.zipWith (· + ·) ((fun _ : ℕ => [(0 : ℚ)]) 0) ((fun _ : ℕ => [(0 : ℚ)]) 0))) ∧
    targetNoEntry.djdu_at (fun _ => [0]) (fun _ => [0]) 1 0 =
      (vecSub (List.zipWith (· + ·) ((fun _ : ℕ => [(0 : ℚ)]) 0) ((fun _ : ℕ => [(0 : ℚ)]) 0))
        (List.zipWith (· + ·) (targetNoEntry.ref_u 1 0) (targetNoEntry.ref_pts 1 0))).map
        (fun x => 2 * x) :=
  target_integrand_fallback targetNoEntry (fun _ => [0]) (fun _ => [0]) 1 0 (by rfl)

/-- C5 (counterexample): with one selected element of body 1 against a
reference with two, `set_reference` logs the count-mismatch error (second
component `true`) yet still returns a built correspondence map pairing
element 0 with reference element 0 — it does not fail fatally. -/
theorem set_reference_mismatch_counterexample :
    set_reference [1] [1, 1] [] = (some [(0, 0)], true) := by decide

/-- C5 (amended): a selected-element-count mismatch between the
simulation and its reference is reported through an error-level log
message, but `set_reference` is not fatal: it continues and builds the
per-body correspondence map exactly as in the matching case. -/
theorem set_reference_mismatch_logged_not_fatal (body_ids ref_body_ids sel : List ℤ)
    (h : (selectedElems body_ids sel).length ≠ (selectedElems ref_body_ids sel).length) :
    (set_reference body_ids ref_body_ids sel).2 = true ∧
    (set_reference body_ids ref_body_ids sel).1 =
      buildCorrespondence body_ids ref_body_ids sel := by
  refine ⟨?_, rfl⟩
  simpa [set_reference, bne_iff_ne] using h

/-- Witness for `set_reference_mismatch_logged_not_fatal` at the
concrete mismatched pair of simulations. -/
theorem set_reference_mismatch_logged_not_fatal_witness :
    (set_reference [1] [1, 1] []).2 = true ∧
    (set_reference [1] [1, 1] []).1 = buildCorrespondence [1] [1, 1] [] :=
  set_reference_mismatch_logged_not_fatal [1] [1, 1] [] (by decide)

end Polyfem
